import Mathlib

/-!
Shallow embedding of the ride-dispatch simulation core
(`location.py`, `rider.py`, `driver.py`, `dispatcher.py`, `event.py`).

Modelling conventions:
* Python object references are modelled by value records. Python object
  *identity* (used by `list.remove` / `in` on `Rider`, which has no `__eq__`)
  is modelled by the unique `id` string of the entity, per the data model
  ("identity (unique string)").
* A Python runtime error (AttributeError on `None.row`, ZeroDivisionError)
  is modelled by `Option`: `none` is a crash, `some` a normal return.
  `Driver.location` is `Option Location` because `end_drive` assigns
  `self.location = self.destination` and `self.destination` may be `None`.
* Python 3 `round` on `distance/speed` rounds half to even; for integer
  `distance` and positive integer `speed` the quotient's halves are exact
  dyadic rationals, so the float computation agrees with exact rational
  round-half-to-even, which is what `roundHalfToEven` implements.
-/

structure Location where
  row : Int
  column : Int
deriving DecidableEq, Repr

/-- Source `location.manhattan_distance`: sum of absolute row and column differences. -/
def manhattan_distance (origin destination : Location) : Nat :=
  (origin.row - destination.row).natAbs + (origin.column - destination.column).natAbs

inductive RiderStatus where
  | waiting
  | cancelled
  | satisfied
deriving DecidableEq, Repr

structure Rider where
  id : String
  origin : Location
  destination : Location
  patience : Nat
  status : RiderStatus
deriving DecidableEq, Repr

/-- Source `Rider.__init__`: a fresh rider starts with status WAITING. -/
def Rider.init (id : String) (origin destination : Location) (patience : Nat) : Rider :=
  { id := id, origin := origin, destination := destination, patience := patience,
    status := RiderStatus.waiting }

structure Driver where
  id : String
  location : Option Location
  speed : Nat
  is_idle : Bool
  destination : Option Location
deriving DecidableEq, Repr

/-- Source `Driver.__init__`: idle, no destination, at the given location. -/
def Driver.init (identifier : String) (location : Location) (speed : Nat) : Driver :=
  { id := identifier, location := some location, speed := speed,
    is_idle := true, destination := none }

/-- Exact round-half-to-even of the rational `d / s` (Python 3 `round`). -/
def roundHalfToEven (d s : Nat) : Nat :=
  let q := d / s
  let r := d % s
  if 2 * r < s then q
  else if s < 2 * r then q + 1
  else if q % 2 = 0 then q else q + 1

/-- Source `Driver.get_travel_time`: `round(manhattan_distance(location, dest)/speed)`.
`none` models the AttributeError when `location` is `None` and the
ZeroDivisionError when `speed` is `0`. -/
def Driver.get_travel_time (driver : Driver) (destination : Location) : Option Nat :=
  match driver.location with
  | none => none
  | some loc =>
      if driver.speed = 0 then none
      else some (roundHalfToEven (manhattan_distance loc destination) driver.speed)

/-- Source `Driver.start_drive`: set `is_idle = False`, compute the travel time,
set `destination`, return the travel time together with the new state. -/
def Driver.start_drive (driver : Driver) (location : Location) : Option (Nat × Driver) :=
  match Driver.get_travel_time { driver with is_idle := false } location with
  | none => none
  | some t => some (t, { driver with is_idle := false, destination := some location })

/-- Source `Driver.end_drive`: `location = destination; destination = None; is_idle = True`.
The source performs no precondition check, so this is total: with
`destination = None` the assignment silently makes `location` `None`. -/
def Driver.end_drive (driver : Driver) : Driver :=
  { driver with location := driver.destination, destination := none, is_idle := true }

/-- Source `Driver.start_ride`: head to the rider's destination. -/
def Driver.start_ride (driver : Driver) (rider : Rider) : Option (Nat × Driver) :=
  match Driver.get_travel_time driver rider.destination with
  | none => none
  | some t => some (t, { driver with destination := some rider.destination, is_idle := false })

/-- Source `Driver.end_ride`: same mechanics as `end_drive`. -/
def Driver.end_ride (driver : Driver) : Driver :=
  { driver with location := driver.destination, destination := none, is_idle := true }

/-- Python `==` on two `Option Location` fields. Comparing `None` with an
actual `Location` raises AttributeError inside `Location.__eq__` (`None.row`),
modelled as `none`. -/
def optLocEq : Option Location → Option Location → Option Bool
  | none, none => some true
  | some a, some b => some (a == b)
  | _, _ => none

/-- Source `Driver.__eq__`: compares `id`, `location`, `destination` and `speed`
(note: not `is_idle`), with Python `and` short-circuiting left to right. -/
def Driver.pyEq (self other : Driver) : Option Bool :=
  if self.id ≠ other.id then some false
  else match optLocEq self.location other.location with
  | none => none
  | some false => some false
  | some true =>
      match optLocEq self.destination other.destination with
      | none => none
      | some false => some false
      | some true => some (self.speed == other.speed)

/-- Python `driver in registry`: scans the list, comparing each element
with `Driver.__eq__`; a crash in any comparison propagates. -/
def memberPy (driver : Driver) : List Driver → Option Bool
  | [] => some false
  | e :: es =>
      match Driver.pyEq e driver with
      | none => none
      | some true => some true
      | some false => memberPy driver es

structure Dispatcher where
  waiting_list : List Rider
  driver_registry : List Driver
deriving DecidableEq, Repr

/-- The scan loop of `Dispatcher.request_driver`: walk the registry keeping
the idle driver with the smallest travel time seen so far (`acc`), replacing
it only on a strictly smaller time. -/
def find_fastest (origin : Location) :
    List Driver → Option (Driver × Nat) → Option (Option (Driver × Nat))
  | [], acc => some acc
  | d :: ds, acc =>
      if d.is_idle then
        match d.get_travel_time origin with
        | none => none
        | some t =>
            match acc with
            | none => find_fastest origin ds (some (d, t))
            | some (fd, ft) =>
                if t < ft then find_fastest origin ds (some (d, t))
                else find_fastest origin ds (some (fd, ft))
      else find_fastest origin ds acc

/-- Source `Dispatcher.request_driver`. -/
def Dispatcher.request_driver (disp : Dispatcher) (rider : Rider) :
    Option (Option Driver × Dispatcher) :=
  if disp.driver_registry.length = 0 then
    some (none, { disp with waiting_list := disp.waiting_list ++ [rider] })
  else
    match find_fastest rider.origin disp.driver_registry none with
    | none => none
    | some none => some (none, { disp with waiting_list := disp.waiting_list ++ [rider] })
    | some (some (fd, _)) => some (some fd, disp)

/-- Source `Dispatcher.request_rider`: register the driver if not already present
(Python `in`, i.e. `Driver.__eq__`), then pop the head of the waiting list. -/
def Dispatcher.request_rider (disp : Dispatcher) (driver : Driver) :
    Option (Option Rider × Dispatcher) :=
  match memberPy driver disp.driver_registry with
  | none => none
  | some b =>
      let registry := if b then disp.driver_registry else disp.driver_registry ++ [driver]
      match disp.waiting_list with
      | [] => some (none, { waiting_list := [], driver_registry := registry })
      | r :: rs => some (some r, { waiting_list := rs, driver_registry := registry })

/-- Remove the first rider with the given identity (Python `list.remove`,
identity comparison since `Rider` defines no `__eq__`). -/
def removeFirstById (id : String) : List Rider → List Rider
  | [] => []
  | r :: rs => if r.id = id then rs else r :: removeFirstById id rs

/-- Source `Dispatcher.cancel_ride`: remove the rider from the waiting list if
present; no-op if absent. -/
def Dispatcher.cancel_ride (disp : Dispatcher) (rider : Rider) : Dispatcher :=
  { disp with waiting_list := removeFirstById rider.id disp.waiting_list }

/-- The five event kinds of `event.py`, with their payloads. Entity payloads
are value snapshots of the shared mutable objects. -/
inductive Event where
  | riderRequest (timestamp : Nat) (rider : Rider)
  | driverRequest (timestamp : Nat) (driver : Driver)
  | cancellation (timestamp : Nat) (rider : Rider)
  | pickup (timestamp : Nat) (rider : Rider) (driver : Driver)
  | dropoff (timestamp : Nat) (rider : Rider) (driver : Driver)
deriving DecidableEq, Repr

def Event.timestamp : Event → Nat
  | .riderRequest t _ => t
  | .driverRequest t _ => t
  | .cancellation t _ => t
  | .pickup t _ _ => t
  | .dropoff t _ _ => t

/-- Source `Event.__eq__`: two events are equal iff they have the same timestamp. -/
def Event.pyEq (self other : Event) : Bool :=
  self.timestamp == other.timestamp

/-- Source `Event.__lt__`: comparison on the timestamps only. -/
def Event.pyLt (self other : Event) : Bool :=
  decide (self.timestamp < other.timestamp)

/-- Source `Event.__le__`. -/
def Event.pyLe (self other : Event) : Bool :=
  decide (self.timestamp ≤ other.timestamp)

def Event.isCancellation : Event → Bool
  | .cancellation _ _ => true
  | _ => false

def Event.isPickup : Event → Bool
  | .pickup _ _ _ => true
  | _ => false

/-- Write a mutated driver back into the registry. In Python the registry
aliases the driver object, so a mutation through `start_drive`/`end_drive`
is visible in the registry; with value records we re-install the updated
record at its (unique) identity. -/
def updateDriverById (drivers : List Driver) (driver : Driver) : List Driver :=
  drivers.map (fun d => if d.id = driver.id then driver else d)

def Dispatcher.updateDriver (disp : Dispatcher) (driver : Driver) : Dispatcher :=
  { disp with driver_registry := updateDriverById disp.driver_registry driver }

/-- Source `RiderRequest.do`: ask the dispatcher for a driver; on a match the driver
starts driving to the rider's origin and a `Pickup` is emitted at
`timestamp + travel_time`; a `Cancellation` at `timestamp + patience` is
always appended last. Returns the emitted events and the updated dispatcher. -/
def RiderRequest.do (timestamp : Nat) (rider : Rider) (disp : Dispatcher) :
    Option (List Event × Dispatcher) :=
  match disp.request_driver rider with
  | none => none
  | some (none, disp1) =>
      some ([Event.cancellation (timestamp + rider.patience) rider], disp1)
  | some (some driver, disp1) =>
      match driver.start_drive rider.origin with
      | none => none
      | some (travel_time, driver1) =>
          some ([Event.pickup (timestamp + travel_time) rider driver1,
                 Event.cancellation (timestamp + rider.patience) rider],
                disp1.updateDriver driver1)

/-- Source `DriverRequest.do`: ask the dispatcher for a rider (registering the
driver); if one is available the driver starts driving to its origin and a
`Pickup` is emitted. -/
def DriverRequest.do (timestamp : Nat) (driver : Driver) (disp : Dispatcher) :
    Option (List Event × Dispatcher) :=
  match disp.request_rider driver with
  | none => none
  | some (none, disp1) => some ([], disp1)
  | some (some rider, disp1) =>
      match driver.start_drive rider.origin with
      | none => none
      | some (travel_time, driver1) =>
          some ([Event.pickup (timestamp + travel_time) rider driver1],
                disp1.updateDriver driver1)

/-- Source `Cancellation.do`: if the rider is not SATISFIED, remove it from the
waiting list and set its status to CANCELLED; emit no events. Returns the
emitted events, the rider's new state and the updated dispatcher. -/
def Cancellation.do (timestamp : Nat) (rider : Rider) (disp : Dispatcher) :
    List Event × Rider × Dispatcher :=
  if rider.status ≠ RiderStatus.satisfied then
    ([], { rider with status := RiderStatus.cancelled }, disp.cancel_ride rider)
  else
    ([], rider, disp)

/-- Source `Pickup.do`: the driver ends its drive (arrives at the pickup point);
if the rider is WAITING the ride starts, a `Dropoff` is emitted and the
rider becomes SATISFIED; if the rider is CANCELLED a `DriverRequest` is
emitted at the same timestamp; otherwise (defensively) nothing is emitted. -/
def Pickup.do (timestamp : Nat) (rider : Rider) (driver : Driver) (disp : Dispatcher) :
    Option (List Event × Rider × Driver × Dispatcher) :=
  let driver1 := driver.end_drive
  if rider.status = RiderStatus.waiting then
    match driver1.start_ride rider with
    | none => none
    | some (travel_time, driver2) =>
        let rider1 := { rider with status := RiderStatus.satisfied }
        some ([Event.dropoff (timestamp + travel_time) rider1 driver2],
              rider1, driver2, disp.updateDriver driver2)
  else if rider.status = RiderStatus.cancelled then
    some ([Event.driverRequest timestamp driver1], rider, driver1, disp.updateDriver driver1)
  else
    some ([], rider, driver1, disp.updateDriver driver1)

/-- Source `Dropoff.do`: the driver ends the ride and immediately emits a
`DriverRequest` at the same timestamp. -/
def Dropoff.do (timestamp : Nat) (rider : Rider) (driver : Driver) (disp : Dispatcher) :
    List Event × Rider × Driver × Dispatcher :=
  let driver1 := driver.end_ride
  ([Event.driverRequest timestamp driver1], rider, driver1, disp.updateDriver driver1)

/-- Number of occurrences of a rider identity in a waiting list. -/
def countById (id : String) (riders : List Rider) : Nat :=
  (riders.filter (fun r => r.id = id)).length

/-- The driver invariant of the data model: a destination is set exactly
when the driver is not idle. -/
def driverInv (d : Driver) : Prop :=
  d.destination.isSome = !d.is_idle

/-- A rider status step allowed by the monotone lifecycle: stay put, or
move out of `waiting`. -/
def statusStep (s s' : RiderStatus) : Prop :=
  s' = s ∨ s = RiderStatus.waiting

/-- Modelled from the spec (error-handling design, `end_drive`): ending a
drive with no destination set should be a fatal error; with a destination it
arrives there and goes idle. The source code of `Driver.end_drive` is
compared against this. -/
def end_drive_specified (d : Driver) : Option Driver :=
  match d.destination with
  | none => none
  | some dest => some { d with location := some dest, destination := none, is_idle := true }

theorem roundHalfToEven_nearest (n s : Nat) (hs : 0 < s) :
    2 * (n - s * roundHalfToEven n s) ≤ s ∧ 2 * (s * roundHalfToEven n s - n) ≤ s := by
  have hmod := Nat.div_add_mod n s
  have hlt := Nat.mod_lt n hs
  simp only [roundHalfToEven]
  split_ifs <;> constructor <;>
    · try simp only [Nat.mul_succ]
      revert hmod
      generalize s * (n / s) = m
      intro hmod
      omega

theorem roundHalfToEven_tie (n s : Nat) (h : 2 * (n % s) = s) :
    roundHalfToEven n s % 2 = 0 := by
  simp only [roundHalfToEven]
  split_ifs <;> omega

/-- Claim C9: for every driver and target position, `get_travel_time` returns
the Manhattan distance from the driver's location to the target divided by
the driver's speed, rounded to the nearest integer under the single fixed
round-half-to-even policy: the result is within half a speed-unit of the
exact quotient, and exact halves round to the even integer. -/
theorem get_travel_time_half_even (d : Driver) (loc dest : Location)
    (hloc : d.location = some loc) (hs : 0 < d.speed) :
    d.get_travel_time dest =
      some (roundHalfToEven (manhattan_distance loc dest) d.speed) ∧
    2 * (manhattan_distance loc dest -
          d.speed * roundHalfToEven (manhattan_distance loc dest) d.speed) ≤ d.speed ∧
    2 * (d.speed * roundHalfToEven (manhattan_distance loc dest) d.speed -
          manhattan_distance loc dest) ≤ d.speed ∧
    (2 * (manhattan_distance loc dest % d.speed) = d.speed →
      roundHalfToEven (manhattan_distance loc dest) d.speed % 2 = 0) := by
  have h1 := roundHalfToEven_nearest (manhattan_distance loc dest) d.speed hs
  have hs0 : d.speed ≠ 0 := Nat.pos_iff_ne_zero.mp hs
  refine ⟨?_, h1.1, h1.2, fun h => roundHalfToEven_tie _ _ h⟩
  simp [Driver.get_travel_time, hloc, hs0]

/-- Claim C9 witness: a driver at (0,0) with speed 2 heading to (0,3) has
travel time round(3/2) = 2 (half rounds to the even integer). -/
theorem get_travel_time_half_even_witness :
    (Driver.init "d" ⟨0, 0⟩ 2).get_travel_time ⟨0, 3⟩ = some 2 :=
  ((get_travel_time_half_even (Driver.init "d" ⟨0, 0⟩ 2) ⟨0, 0⟩ ⟨0, 3⟩ rfl
      (by decide)).1).trans (by decide)

/-- Claim C7 counterexample: calling `end_drive` on a driver whose
destination is not set does not abort: it returns normally, silently setting
the location to the absent destination, while the spec-modelled operation
signals the error (`none`). -/
theorem end_drive_no_abort_cex :
    Driver.end_drive
        { id := "d", location := some ⟨0, 0⟩, speed := 1, is_idle := false,
          destination := none } =
      { id := "d", location := none, speed := 1, is_idle := true, destination := none } ∧
    end_drive_specified
        { id := "d", location := some ⟨0, 0⟩, speed := 1, is_idle := false,
          destination := none } = none := by
  exact ⟨rfl, rfl⟩

/-- Claim C7 (amended): calling `end_drive` (and hence `end_ride`, which has
identical mechanics) with no destination set does not abort with an error; it
silently continues, setting the location to the absent destination (`None`),
clearing the destination and marking the driver idle, whereas the
spec-modelled operation treats this as a fatal error. -/
theorem end_drive_silent_on_no_destination (d : Driver) (h : d.destination = none) :
    d.end_drive = { d with location := none, is_idle := true } ∧
    d.end_ride = { d with location := none, is_idle := true } ∧
    end_drive_specified d = none := by
  refine ⟨?_, ?_, ?_⟩ <;> simp [Driver.end_drive, Driver.end_ride, end_drive_specified, h]

/-- Claim C7 witness: the silent continuation evaluated on a concrete driver. -/
theorem end_drive_silent_witness :
    Driver.end_drive
        { id := "e", location := some ⟨2, 3⟩, speed := 2, is_idle := false,
          destination := none } =
      { id := "e", location := none, speed := 2, is_idle := true, destination := none } :=
  (end_drive_silent_on_no_destination
      { id := "e", location := some ⟨2, 3⟩, speed := 2, is_idle := false,
        destination := none } rfl).1

/-- Claim C6 counterexample: two distinct events with equal timestamps are
declared equal by `Event.__eq__` and unordered by `Event.__lt__` in both
directions — there is no secondary tie-break imposing a total order on
distinct events. -/
theorem event_equal_timestamp_interchangeable_cex :
    Event.cancellation 5 (Rider.init "r" ⟨0, 0⟩ ⟨1, 1⟩ 3) ≠
      Event.pickup 5 (Rider.init "r" ⟨0, 0⟩ ⟨1, 1⟩ 3) (Driver.init "d" ⟨0, 0⟩ 1) ∧
    Event.pyEq (Event.cancellation 5 (Rider.init "r" ⟨0, 0⟩ ⟨1, 1⟩ 3))
        (Event.pickup 5 (Rider.init "r" ⟨0, 0⟩ ⟨1, 1⟩ 3) (Driver.init "d" ⟨0, 0⟩ 1)) = true ∧
    Event.pyLt (Event.cancellation 5 (Rider.init "r" ⟨0, 0⟩ ⟨1, 1⟩ 3))
        (Event.pickup 5 (Rider.init "r" ⟨0, 0⟩ ⟨1, 1⟩ 3) (Driver.init "d" ⟨0, 0⟩ 1)) = false ∧
    Event.pyLt (Event.pickup 5 (Rider.init "r" ⟨0, 0⟩ ⟨1, 1⟩ 3) (Driver.init "d" ⟨0, 0⟩ 1))
        (Event.cancellation 5 (Rider.init "r" ⟨0, 0⟩ ⟨1, 1⟩ 3)) = false := by
  refine ⟨by decide, rfl, rfl, rfl⟩

/-- Claim C6 (amended): the event ordering used by the simulation queue is
determined by the timestamp alone: `__eq__` holds exactly on equal
timestamps and `__lt__`/`__le__` compare timestamps ascending; no secondary
tie-break exists, so distinct events with equal timestamps compare equal. -/
theorem event_order_timestamp_only (a b : Event) :
    (Event.pyEq a b = true ↔ a.timestamp = b.timestamp) ∧
    (Event.pyLt a b = true ↔ a.timestamp < b.timestamp) ∧
    (Event.pyLe a b = true ↔ a.timestamp ≤ b.timestamp) := by
  simp [Event.pyEq, Event.pyLt, Event.pyLe]

/-- Claim C8: the invariant "destination is set iff the idle flag is false"
holds after construction and is (re-)established by `start_drive`,
`end_drive`, `start_ride` and `end_ride` (target positions are non-`None` by
type; the `Option` results only succeed when the travel-time computation
does not crash). -/
theorem driver_destination_idle_invariant (identifier : String) (loc target : Location)
    (speed : Nat) (d d' : Driver) (rider : Rider) (t : Nat) :
    driverInv (Driver.init identifier loc speed) ∧
    (d.start_drive target = some (t, d') → driverInv d') ∧
    driverInv d.end_drive ∧
    (d.start_ride rider = some (t, d') → driverInv d') ∧
    driverInv d.end_ride := by
  refine ⟨rfl, fun h => ?_, rfl, fun h => ?_, rfl⟩
  · unfold Driver.start_drive at h
    split at h
    · exact Option.noConfusion h
    · simp only [Option.some.injEq, Prod.mk.injEq] at h
      rw [← h.2]
      rfl
  · unfold Driver.start_ride at h
    split at h
    · exact Option.noConfusion h
    · simp only [Option.some.injEq, Prod.mk.injEq] at h
      rw [← h.2]
      rfl

/-- Claim C8 witness: the invariant after a concrete successful `start_drive`. -/
theorem driver_destination_idle_invariant_witness :
    driverInv { id := "d", location := some ⟨0, 0⟩, speed := 1, is_idle := false,
                destination := some ⟨0, 3⟩ } :=
  (driver_destination_idle_invariant "d" ⟨0, 0⟩ ⟨0, 3⟩ 1 (Driver.init "d" ⟨0, 0⟩ 1)
      { id := "d", location := some ⟨0, 0⟩, speed := 1, is_idle := false,
        destination := some ⟨0, 3⟩ }
      (Rider.init "r" ⟨0, 0⟩ ⟨1, 1⟩ 5) 3).2.1 (by decide)

theorem memberPy_false (driver : Driver) (l : List Driver)
    (h : memberPy driver l = some false) : ∀ e ∈ l, Driver.pyEq e driver = some false := by
  induction l with
  | nil => intro e he; cases he
  | cons x xs ih =>
      intro e he
      rcases List.mem_cons.mp he with rfl | hmem
      · unfold memberPy at h
        split at h
        · exact Option.noConfusion h
        · simp at h
        · assumption
      · unfold memberPy at h
        split at h
        · exact Option.noConfusion h
        · simp at h
        · exact ih h e hmem

theorem request_rider_eq (disp : Dispatcher) (driver : Driver) (b : Bool)
    (hb : memberPy driver disp.driver_registry = some b) :
    disp.request_rider driver =
      some (disp.waiting_list.head?,
            { waiting_list := disp.waiting_list.tail,
              driver_registry := if b then disp.driver_registry
                                 else disp.driver_registry ++ [driver] }) := by
  unfold Dispatcher.request_rider
  rw [hb]
  rcases hwl : disp.waiting_list with _ | ⟨r, rs⟩ <;> simp [hwl]

theorem request_rider_member_of_success (disp : Dispatcher) (driver : Driver)
    (res : Option Rider) (disp' : Dispatcher)
    (h : disp.request_rider driver = some (res, disp')) :
    ∃ b, memberPy driver disp.driver_registry = some b := by
  unfold Dispatcher.request_rider at h
  cases hm : memberPy driver disp.driver_registry with
  | none => rw [hm] at h; cases h
  | some b => exact ⟨b, rfl⟩

/-- Claim C5 counterexample: two `Driver` records sharing the identity string
`"a"` but at different locations are both registered — the registry grows by
one per distinct *record* (under `Driver.__eq__`, which compares location,
destination and speed as well), not per distinct identity string. -/
theorem request_rider_id_distinctness_cex :
    Dispatcher.request_rider
        (Dispatcher.mk [] [Driver.init "a" ⟨0, 0⟩ 1]) (Driver.init "a" ⟨1, 1⟩ 1) =
      some (none, Dispatcher.mk [] [Driver.init "a" ⟨0, 0⟩ 1, Driver.init "a" ⟨1, 1⟩ 1]) ∧
    (Driver.init "a" ⟨1, 1⟩ 1).id = (Driver.init "a" ⟨0, 0⟩ 1).id := by
  exact ⟨by decide, rfl⟩

/-- Claim C5 (amended): `request_rider` never duplicates a driver already in
the registry in the sense of `Driver.__eq__` (equal id, location, destination
and speed): the registry either stays unchanged or grows by exactly the
requesting driver, so it grows by at most one per call; and if some
registered driver compares equal to the requester it stays unchanged.
Distinctness is by full record equality, not by the id string alone. -/
theorem request_rider_registration (disp : Dispatcher) (driver : Driver)
    (res : Option Rider) (disp' : Dispatcher)
    (h : disp.request_rider driver = some (res, disp')) :
    (disp'.driver_registry = disp.driver_registry ∨
     disp'.driver_registry = disp.driver_registry ++ [driver]) ∧
    ((∃ e ∈ disp.driver_registry, Driver.pyEq e driver = some true) →
      disp'.driver_registry = disp.driver_registry) ∧
    disp'.driver_registry.length ≤ disp.driver_registry.length + 1 := by
  obtain ⟨b, hb⟩ := request_rider_member_of_success disp driver res disp' h
  rw [request_rider_eq disp driver b hb] at h
  simp only [Option.some.injEq, Prod.mk.injEq] at h
  rw [← h.2]
  cases b with
  | true => exact ⟨Or.inl rfl, fun _ => rfl, by simp⟩
  | false =>
      refine ⟨Or.inr (by simp), ?_, by simp⟩
      rintro ⟨e, he, htrue⟩
      have := memberPy_false driver disp.driver_registry hb e he
      rw [htrue] at this
      exact absurd this (by simp)

/-- Claim C5 witness: a driver whose record equals a registered one is not
re-appended. -/
theorem request_rider_registration_witness :
    (Dispatcher.mk [] [Driver.init "a" ⟨0, 0⟩ 1]).driver_registry =
      (Dispatcher.mk [Rider.init "r" ⟨0, 0⟩ ⟨1, 1⟩ 5]
        [Driver.init "a" ⟨0, 0⟩ 1]).driver_registry :=
  (request_rider_registration
      (Dispatcher.mk [Rider.init "r" ⟨0, 0⟩ ⟨1, 1⟩ 5] [Driver.init "a" ⟨0, 0⟩ 1])
      (Driver.init "a" ⟨0, 0⟩ 1) (some (Rider.init "r" ⟨0, 0⟩ ⟨1, 1⟩ 5))
      (Dispatcher.mk [] [Driver.init "a" ⟨0, 0⟩ 1]) (by decide)).2.1
    ⟨Driver.init "a" ⟨0, 0⟩ 1, by decide, by decide⟩

theorem removeFirstById_of_count_zero (id : String) (l : List Rider)
    (h : countById id l = 0) : removeFirstById id l = l := by
  induction l with
  | nil => rfl
  | cons r rs ih =>
      unfold countById at h
      by_cases hr : r.id = id
      · have hd : decide (r.id = id) = true := by simpa using hr
        rw [List.filter_cons, if_pos hd] at h
        simp at h
      · have hd : ¬(decide (r.id = id) = true) := by simpa using hr
        rw [List.filter_cons, if_neg hd] at h
        unfold removeFirstById
        rw [if_neg hr, ih h]

theorem countById_removeFirstById (id : String) (l : List Rider) :
    countById id (removeFirstById id l) = countById id l - 1 := by
  induction l with
  | nil => rfl
  | cons r rs ih =>
      by_cases hr : r.id = id
      · have hd : decide (r.id = id) = true := by simpa using hr
        unfold removeFirstById
        rw [if_pos hr]
        unfold countById
        rw [List.filter_cons, if_pos hd]
        simp
      · have hd : ¬(decide (r.id = id) = true) := by simpa using hr
        unfold removeFirstById
        rw [if_neg hr]
        unfold countById
        rw [List.filter_cons, List.filter_cons, if_neg hd, if_neg hd]
        exact ih

/-- Claim C10: executing a `Cancellation` is idempotent on simulation state:
running `Cancellation.do` a second time for the same rider leaves the
rider's status and the dispatcher's waiting list exactly as after the first
execution, and emits no events either time. (The hypothesis records the
waiting-list data-model invariant that a rider appears at most once.) -/
theorem cancellation_idempotent (t1 t2 : Nat) (rider : Rider) (disp : Dispatcher)
    (hdup : countById rider.id disp.waiting_list ≤ 1) :
    (Cancellation.do t1 rider disp).1 = [] ∧
    (Cancellation.do t2 (Cancellation.do t1 rider disp).2.1
        (Cancellation.do t1 rider disp).2.2).1 = [] ∧
    (Cancellation.do t2 (Cancellation.do t1 rider disp).2.1
        (Cancellation.do t1 rider disp).2.2).2.1 = (Cancellation.do t1 rider disp).2.1 ∧
    (Cancellation.do t2 (Cancellation.do t1 rider disp).2.1
        (Cancellation.do t1 rider disp).2.2).2.2 = (Cancellation.do t1 rider disp).2.2 := by
  by_cases hsat : rider.status = RiderStatus.satisfied
  · simp [Cancellation.do, hsat]
  · have h0 : countById rider.id (removeFirstById rider.id disp.waiting_list) = 0 := by
      have := countById_removeFirstById rider.id disp.waiting_list
      omega
    simp [Cancellation.do, hsat, Dispatcher.cancel_ride,
          removeFirstById_of_count_zero _ _ h0]

/-- Claim C10 witness: both executions evaluated on a concrete rider who is
on the waiting list. -/
theorem cancellation_idempotent_witness :
    (Cancellation.do 9
        (Cancellation.do 7 (Rider.init "r" ⟨0, 0⟩ ⟨1, 1⟩ 5)
            (Dispatcher.mk [Rider.init "r" ⟨0, 0⟩ ⟨1, 1⟩ 5] [])).2.1
        (Cancellation.do 7 (Rider.init "r" ⟨0, 0⟩ ⟨1, 1⟩ 5)
            (Dispatcher.mk [Rider.init "r" ⟨0, 0⟩ ⟨1, 1⟩ 5] [])).2.2).2.2 =
      (Cancellation.do 7 (Rider.init "r" ⟨0, 0⟩ ⟨1, 1⟩ 5)
          (Dispatcher.mk [Rider.init "r" ⟨0, 0⟩ ⟨1, 1⟩ 5] [])).2.2 :=
  (cancellation_idempotent 7 9 (Rider.init "r" ⟨0, 0⟩ ⟨1, 1⟩ 5)
      (Dispatcher.mk [Rider.init "r" ⟨0, 0⟩ ⟨1, 1⟩ 5] []) (by decide)).2.2.2

/-- Claim C4: rider status transitions are monotonic across event
executions: a constructed rider starts `waiting`; `Cancellation.do` and
`Pickup.do` (the only handlers that write a rider status) move the status
only along allowed steps (stay put, or leave `waiting`); a `Cancellation` on
a `satisfied` rider changes neither the rider nor the waiting list; a
`Pickup` on a `cancelled` rider leaves the rider unchanged (never
`satisfied`); `Dropoff.do` never touches the rider. -/
theorem rider_status_monotone (id : String) (o dest : Location) (p t : Nat)
    (rider : Rider) (driver : Driver) (disp : Dispatcher)
    (evs : List Event) (rider' : Rider) (driver' : Driver) (disp' : Dispatcher) :
    (Rider.init id o dest p).status = RiderStatus.waiting ∧
    statusStep rider.status (Cancellation.do t rider disp).2.1.status ∧
    (Pickup.do t rider driver disp = some (evs, rider', driver', disp') →
      statusStep rider.status rider'.status) ∧
    (rider.status = RiderStatus.satisfied →
      Cancellation.do t rider disp = ([], rider, disp)) ∧
    (rider.status = RiderStatus.cancelled →
      Pickup.do t rider driver disp = some (evs, rider', driver', disp') →
      rider' = rider) ∧
    (Dropoff.do t rider driver disp).2.1 = rider := by
  refine ⟨rfl, ?_, ?_, ?_, ?_, rfl⟩
  · cases hst : rider.status <;> simp [Cancellation.do, hst, statusStep]
  · intro h
    cases hst : rider.status with
    | waiting => exact Or.inr rfl
    | cancelled =>
        simp [Pickup.do, hst] at h
        obtain ⟨h1, h2, h3, h4⟩ := h
        exact Or.inl (h2 ▸ hst)
    | satisfied =>
        simp [Pickup.do, hst] at h
        obtain ⟨h1, h2, h3, h4⟩ := h
        exact Or.inl (h2 ▸ hst)
  · intro hsat
    simp [Cancellation.do, hsat]
  · intro hc h
    simp [Pickup.do, hc] at h
    exact h.2.1.symm

/-- Claim C3: a `RiderRequest` at time `t` always emits exactly one
`Cancellation` for its rider at `t + patience`, whether or not a driver was
matched; and it emits a `Pickup` (at `t + travel_time` of the matched
driver's drive to the rider's origin) precisely when the dispatcher returned
a driver. -/
theorem rider_request_events (t : Nat) (rider : Rider) (disp : Dispatcher)
    (evs : List Event) (disp' : Dispatcher)
    (h : RiderRequest.do t rider disp = some (evs, disp')) :
    evs.filter Event.isCancellation = [Event.cancellation (t + rider.patience) rider] ∧
    ((∃ e ∈ evs, Event.isPickup e = true) ↔
      ∃ fd disp1, disp.request_driver rider = some (some fd, disp1)) ∧
    (∀ fd disp1, disp.request_driver rider = some (some fd, disp1) →
      ∃ tt driver1, fd.start_drive rider.origin = some (tt, driver1) ∧
        evs = [Event.pickup (t + tt) rider driver1,
               Event.cancellation (t + rider.patience) rider]) := by
  unfold RiderRequest.do at h
  cases hreq : disp.request_driver rider with
  | none => rw [hreq] at h; cases h
  | some pr =>
      obtain ⟨od, disp1⟩ := pr
      rw [hreq] at h
      cases od with
      | none =>
          simp at h
          obtain ⟨h1, h2⟩ := h
          refine ⟨?_, ?_, ?_⟩
          · rw [← h1]
            rfl
          · constructor
            · rintro ⟨e, he, hp⟩
              rw [← h1] at he
              simp at he
              rw [he] at hp
              simp [Event.isPickup] at hp
            · rintro ⟨fd, d1, heq⟩
              simp at heq
          · intro fd d1 heq
            simp at heq
      | some driver =>
          have h' : (match driver.start_drive rider.origin with
                     | none => none
                     | some (travel_time, driver1) =>
                         some ([Event.pickup (t + travel_time) rider driver1,
                                Event.cancellation (t + rider.patience) rider],
                               disp1.updateDriver driver1)) = some (evs, disp') := h
          cases hsd : driver.start_drive rider.origin with
          | none => rw [hsd] at h'; cases h'
          | some pr2 =>
              obtain ⟨tt, driver1⟩ := pr2
              rw [hsd] at h'
              simp at h'
              obtain ⟨h1, h2⟩ := h'
              refine ⟨?_, ?_, ?_⟩
              · rw [← h1]
                rfl
              · constructor
                · intro _
                  exact ⟨driver, disp1, rfl⟩
                · intro _
                  rw [← h1]
                  exact ⟨Event.pickup (t + tt) rider driver1, by simp, rfl⟩
              · intro fd d1 heq
                simp at heq
                obtain ⟨hfd, hd1⟩ := heq
                rw [← hfd]
                exact ⟨tt, driver1, hsd, h1.symm⟩

/-- Claim C3 witness: a concrete matched request emits a `Pickup` and the
single `Cancellation`. -/
theorem rider_request_events_witness :
    [Event.pickup 13
        (Rider.init "r" ⟨0, 3⟩ ⟨0, 9⟩ 20)
        { id := "a", location := some ⟨0, 0⟩, speed := 1, is_idle := false,
          destination := some ⟨0, 3⟩ },
     Event.cancellation 30 (Rider.init "r" ⟨0, 3⟩ ⟨0, 9⟩ 20)].filter
      Event.isCancellation =
      [Event.cancellation 30 (Rider.init "r" ⟨0, 3⟩ ⟨0, 9⟩ 20)] :=
  (rider_request_events 10 (Rider.init "r" ⟨0, 3⟩ ⟨0, 9⟩ 20)
      (Dispatcher.mk [] [Driver.init "a" ⟨0, 0⟩ 1])
      [Event.pickup 13
          (Rider.init "r" ⟨0, 3⟩ ⟨0, 9⟩ 20)
          { id := "a", location := some ⟨0, 0⟩, speed := 1, is_idle := false,
            destination := some ⟨0, 3⟩ },
       Event.cancellation 30 (Rider.init "r" ⟨0, 3⟩ ⟨0, 9⟩ 20)]
      (Dispatcher.mk [] [{ id := "a", location := some ⟨0, 0⟩, speed := 1,
                           is_idle := false, destination := some ⟨0, 3⟩ }])
      (by decide)).1

theorem find_fastest_none_of_no_idle (origin : Location) :
    ∀ ds : List Driver, (∀ d ∈ ds, d.is_idle = false) →
    ∀ acc, find_fastest origin ds acc = some acc := by
  intro ds
  induction ds with
  | nil => intro _ acc; rfl
  | cons d ds ih =>
      intro hall acc
      unfold find_fastest
      rw [hall d (List.mem_cons_self d ds), if_neg Bool.false_ne_true]
      exact ih (fun x hx => hall x (List.mem_cons_of_mem d hx)) acc

theorem find_fastest_isSome (origin : Location) :
    ∀ ds : List Driver,
    (∀ d ∈ ds, d.is_idle = true → (d.get_travel_time origin).isSome = true) →
    ∀ acc, (find_fastest origin ds acc).isSome = true := by
  intro ds
  induction ds with
  | nil => intro _ acc; rfl
  | cons d ds ih =>
      intro hok acc
      have hok' : ∀ x ∈ ds, x.is_idle = true → (x.get_travel_time origin).isSome = true :=
        fun x hx => hok x (List.mem_cons_of_mem d hx)
      unfold find_fastest
      cases hidle : d.is_idle with
      | false =>
          rw [if_neg Bool.false_ne_true]
          exact ih hok' acc
      | true =>
          rw [if_pos rfl]
          cases hg : d.get_travel_time origin with
          | none =>
              have hs := hok d (List.mem_cons_self d ds) hidle
              rw [hg] at hs
              exact Bool.noConfusion hs
          | some t =>
              cases acc with
              | none => exact ih hok' (some (d, t))
              | some p =>
                  obtain ⟨fd0, ft0⟩ := p
                  show (if t < ft0 then find_fastest origin ds (some (d, t))
                        else find_fastest origin ds (some (fd0, ft0))).isSome = true
                  by_cases hlt : t < ft0
                  · rw [if_pos hlt]; exact ih hok' _
                  · rw [if_neg hlt]; exact ih hok' _

/-- Characterization of the registry scan: on success, either the incoming
best is kept and every idle driver's time is no better, or the result is the
first idle driver attaining the strict minimum: strictly better than the
incoming best and every idle driver before it, and no worse than every idle
driver after it. -/
theorem find_fastest_spec (origin : Location) :
    ∀ (ds : List Driver) (acc res : Option (Driver × Nat)),
    find_fastest origin ds acc = some res →
    (res = none → acc = none ∧ ∀ d ∈ ds, d.is_idle = false) ∧
    (∀ fd ft, res = some (fd, ft) →
      (acc = some (fd, ft) ∧ ∀ d ∈ ds, d.is_idle = true →
          ∀ u, d.get_travel_time origin = some u → ft ≤ u) ∨
      (∃ pre post, ds = pre ++ fd :: post ∧ fd.is_idle = true ∧
          fd.get_travel_time origin = some ft ∧
          (∀ p q, acc = some (p, q) → ft < q) ∧
          (∀ d ∈ pre, d.is_idle = true →
             ∀ u, d.get_travel_time origin = some u → ft < u) ∧
          (∀ d ∈ post, d.is_idle = true →
             ∀ u, d.get_travel_time origin = some u → ft ≤ u))) := by
  intro ds
  induction ds with
  | nil =>
      intro acc res h
      have hres : acc = res := Option.some.inj h
      subst hres
      constructor
      · intro h0
        exact ⟨h0, fun d hd => absurd hd (List.not_mem_nil d)⟩
      · intro fd ft h0
        exact Or.inl ⟨h0, fun d hd => absurd hd (List.not_mem_nil d)⟩
  | cons d ds ih =>
      intro acc res h
      unfold find_fastest at h
      cases hidle : d.is_idle with
      | false =>
          rw [hidle, if_neg Bool.false_ne_true] at h
          have spec := ih acc res h
          constructor
          · intro hres
            obtain ⟨hacc, hall⟩ := spec.1 hres
            refine ⟨hacc, fun x hx => ?_⟩
            rcases List.mem_cons.mp hx with rfl | hx'
            · exact hidle
            · exact hall x hx'
          · intro fd ft hres
            rcases spec.2 fd ft hres with ⟨hacc, hall⟩ | ⟨pre, post, hds, hI, hT, hA, hPre, hPost⟩
            · left
              refine ⟨hacc, fun x hx => ?_⟩
              rcases List.mem_cons.mp hx with rfl | hx'
              · intro hxi
                rw [hidle] at hxi
                exact Bool.noConfusion hxi
              · exact hall x hx'
            · right
              refine ⟨d :: pre, post, by simp [hds], hI, hT, hA, fun x hx => ?_, hPost⟩
              rcases List.mem_cons.mp hx with rfl | hx'
              · intro hxi
                rw [hidle] at hxi
                exact Bool.noConfusion hxi
              · exact hPre x hx'
      | true =>
          rw [hidle, if_pos rfl] at h
          cases hg : d.get_travel_time origin with
          | none =>
              rw [hg] at h
              exact absurd h (by simp)
          | some t =>
              rw [hg] at h
              cases acc with
              | none =>
                  have h' : find_fastest origin ds (some (d, t)) = some res := h
                  have spec := ih (some (d, t)) res h'
                  constructor
                  · intro hres
                    obtain ⟨hacc, _⟩ := spec.1 hres
                    exact Option.noConfusion hacc
                  · intro fd ft hres
                    right
                    rcases spec.2 fd ft hres with ⟨hacc, hall⟩ |
                        ⟨pre, post, hds, hI, hT, hA, hPre, hPost⟩
                    · have hp := Option.some.inj hacc
                      injection hp with hfd hft
                      subst hfd
                      subst hft
                      refine ⟨[], ds, rfl, hidle, hg, ?_, ?_, hall⟩
                      · intro p q hpq
                        exact Option.noConfusion hpq
                      · intro x hx
                        exact absurd hx (List.not_mem_nil x)
                    · refine ⟨d :: pre, post, by simp [hds], hI, hT, ?_, fun x hx => ?_, hPost⟩
                      · intro p q hpq
                        exact Option.noConfusion hpq
                      · rcases List.mem_cons.mp hx with rfl | hx'
                        · intro _ u hu
                          rw [hg] at hu
                          have ht := Option.some.inj hu
                          have hlt := hA x t rfl
                          omega
                        · exact hPre x hx'
              | some p =>
                  obtain ⟨fd0, ft0⟩ := p
                  have h' : (if t < ft0 then find_fastest origin ds (some (d, t))
                             else find_fastest origin ds (some (fd0, ft0))) = some res := h
                  by_cases hlt : t < ft0
                  · rw [if_pos hlt] at h'
                    have spec := ih (some (d, t)) res h'
                    constructor
                    · intro hres
                      obtain ⟨hacc, _⟩ := spec.1 hres
                      exact Option.noConfusion hacc
                    · intro fd ft hres
                      right
                      rcases spec.2 fd ft hres with ⟨hacc, hall⟩ |
                          ⟨pre, post, hds, hI, hT, hA, hPre, hPost⟩
                      · have hp := Option.some.inj hacc
                        injection hp with hfd hft
                        subst hfd
                        subst hft
                        refine ⟨[], ds, rfl, hidle, hg, ?_, ?_, hall⟩
                        · intro p q hpq
                          have hp2 := Option.some.inj hpq
                          injection hp2 with hp3 hp4
                          omega
                        · intro x hx
                          exact absurd hx (List.not_mem_nil x)
                      · refine ⟨d :: pre, post, by simp [hds], hI, hT, ?_, fun x hx => ?_, hPost⟩
                        · intro p q hpq
                          have hp2 := Option.some.inj hpq
                          injection hp2 with hp3 hp4
                          have hft := hA d t rfl
                          omega
                        · rcases List.mem_cons.mp hx with rfl | hx'
                          · intro _ u hu
                            rw [hg] at hu
                            have ht := Option.some.inj hu
                            have hft := hA x t rfl
                            omega
                          · exact hPre x hx'
                  · rw [if_neg hlt] at h'
                    have spec := ih (some (fd0, ft0)) res h'
                    constructor
                    · intro hres
                      obtain ⟨hacc, _⟩ := spec.1 hres
                      exact Option.noConfusion hacc
                    · intro fd ft hres
                      rcases spec.2 fd ft hres with ⟨hacc, hall⟩ |
                          ⟨pre, post, hds, hI, hT, hA, hPre, hPost⟩
                      · left
                        have hp := Option.some.inj hacc
                        injection hp with hfd hft
                        refine ⟨by rw [hfd, hft], fun x hx => ?_⟩
                        rcases List.mem_cons.mp hx with rfl | hx'
                        · intro _ u hu
                          rw [hg] at hu
                          have ht := Option.some.inj hu
                          omega
                        · exact hall x hx'
                      · right
                        refine ⟨d :: pre, post, by simp [hds], hI, hT, ?_, fun x hx => ?_, hPost⟩
                        · intro p q hpq
                          have hp2 := Option.some.inj hpq
                          injection hp2 with hp3 hp4
                          have hft := hA fd0 ft0 rfl
                          omega
                        · rcases List.mem_cons.mp hx with rfl | hx'
                          · intro _ u hu
                            rw [hg] at hu
                            have ht := Option.some.inj hu
                            have hft := hA fd0 ft0 rfl
                            omega
                          · exact hPre x hx'

/-- Claim C1: `request_driver` appends the rider at the tail of the waiting
list and returns no driver when the registry is empty or has no idle driver;
otherwise (whenever some registered driver is idle and the scan does not
crash) it returns the registered idle driver with the strictly smallest
travel time to the rider's origin — strictly better than every idle driver
registered before it and no worse than every idle driver after it, i.e.
ties go to the first-registered — and leaves the waiting list untouched. -/
theorem request_driver_matching (disp : Dispatcher) (rider : Rider) :
    (disp.driver_registry = [] →
       disp.request_driver rider =
         some (none, { disp with waiting_list := disp.waiting_list ++ [rider] })) ∧
    ((∀ d ∈ disp.driver_registry, d.is_idle = false) →
       disp.request_driver rider =
         some (none, { disp with waiting_list := disp.waiting_list ++ [rider] })) ∧
    ((∀ d ∈ disp.driver_registry, d.is_idle = true →
        (d.get_travel_time rider.origin).isSome = true) →
     (∃ d ∈ disp.driver_registry, d.is_idle = true) →
     ∃ fd, disp.request_driver rider = some (some fd, disp)) ∧
    (∀ fd disp', disp.request_driver rider = some (some fd, disp') →
       disp' = disp ∧
       ∃ pre post ft, disp.driver_registry = pre ++ fd :: post ∧ fd.is_idle = true ∧
         fd.get_travel_time rider.origin = some ft ∧
         (∀ d ∈ pre, d.is_idle = true →
            ∀ u, d.get_travel_time rider.origin = some u → ft < u) ∧
         (∀ d ∈ post, d.is_idle = true →
            ∀ u, d.get_travel_time rider.origin = some u → ft ≤ u)) := by
  refine ⟨?_, ?_, ?_, ?_⟩
  · intro hreg
    unfold Dispatcher.request_driver
    rw [hreg]
    rfl
  · intro hall
    unfold Dispatcher.request_driver
    by_cases hreg : disp.driver_registry.length = 0
    · rw [if_pos hreg]
    · rw [if_neg hreg,
          find_fastest_none_of_no_idle rider.origin disp.driver_registry hall none]
  · intro hok hex
    unfold Dispatcher.request_driver
    have hlen : ¬ disp.driver_registry.length = 0 := by
      obtain ⟨d, hd, _⟩ := hex
      intro h0
      rw [List.length_eq_zero] at h0
      rw [h0] at hd
      exact absurd hd (List.not_mem_nil d)
    rw [if_neg hlen]
    have hsome := find_fastest_isSome rider.origin disp.driver_registry hok none
    cases hres : find_fastest rider.origin disp.driver_registry none with
    | none =>
        rw [hres] at hsome
        exact Bool.noConfusion hsome
    | some res =>
        cases res with
        | none =>
            exfalso
            have spec := find_fastest_spec rider.origin disp.driver_registry none none hres
            obtain ⟨_, hni⟩ := spec.1 rfl
            obtain ⟨d, hd, hdi⟩ := hex
            rw [hni d hd] at hdi
            exact Bool.noConfusion hdi
        | some p =>
            obtain ⟨fd, ft⟩ := p
            exact ⟨fd, rfl⟩
  · intro fd disp' h
    unfold Dispatcher.request_driver at h
    by_cases hreg : disp.driver_registry.length = 0
    · rw [if_pos hreg] at h
      simp at h
    · rw [if_neg hreg] at h
      cases hres : find_fastest rider.origin disp.driver_registry none with
      | none => rw [hres] at h; exact absurd h (by simp)
      | some res =>
          rw [hres] at h
          cases res with
          | none => exact absurd h (by simp)
          | some p =>
              obtain ⟨fd1, ft⟩ := p
              simp at h
              obtain ⟨hfd, hdisp⟩ := h
              subst hfd
              refine ⟨hdisp.symm, ?_⟩
              have spec := find_fastest_spec rider.origin disp.driver_registry none
                  (some (fd1, ft)) hres
              rcases spec.2 fd1 ft rfl with ⟨hacc, _⟩ |
                  ⟨pre, post, hds, hI, hT, _, hPre, hPost⟩
              · exact absurd hacc (by simp)
              · exact ⟨pre, post, ft, hds, hI, hT, hPre, hPost⟩

/-- Claim C1 witness: with two idle registered drivers at equal distance
from the rider, the first-registered is selected and the waiting list is
untouched. -/
theorem request_driver_matching_witness :
    ∃ fd, (Dispatcher.mk [] [Driver.init "a" ⟨0, 1⟩ 1, Driver.init "b" ⟨1, 0⟩ 1]).request_driver
        (Rider.init "r" ⟨0, 0⟩ ⟨5, 5⟩ 9) =
      some (some fd, Dispatcher.mk [] [Driver.init "a" ⟨0, 1⟩ 1, Driver.init "b" ⟨1, 0⟩ 1]) :=
  (request_driver_matching
      (Dispatcher.mk [] [Driver.init "a" ⟨0, 1⟩ 1, Driver.init "b" ⟨1, 0⟩ 1])
      (Rider.init "r" ⟨0, 0⟩ ⟨5, 5⟩ 9)).2.2.1 (by decide) (by decide)

theorem request_driver_none_appends (disp : Dispatcher) (rider : Rider) (disp' : Dispatcher)
    (h : disp.request_driver rider = some (none, disp')) :
    disp' = { disp with waiting_list := disp.waiting_list ++ [rider] } := by
  unfold Dispatcher.request_driver at h
  by_cases hreg : disp.driver_registry.length = 0
  · rw [if_pos hreg] at h
    simp at h
    exact h.symm
  · rw [if_neg hreg] at h
    cases hres : find_fastest rider.origin disp.driver_registry none with
    | none => rw [hres] at h; exact absurd h (by simp)
    | some res =>
        rw [hres] at h
        cases res with
        | none =>
            simp at h
            exact h.symm
        | some p =>
            obtain ⟨fd, ft⟩ := p
            exact absurd h (by simp)

/-- Claim C2: the waiting list is a strict FIFO: `request_rider` on a
non-empty waiting list removes and returns its head, and if riders A then B
both fail to find a driver (each request appending at the tail) and a driver
later requests a rider, A is matched and B stays at the head of the
remaining list. -/
theorem waiting_list_fifo (disp : Dispatcher) (driver : Driver) (a b : Rider)
    (disp1 disp2 disp3 : Dispatcher) (res : Option Rider) :
    (∀ r rest, disp.waiting_list = r :: rest →
       disp.request_rider driver = some (res, disp3) →
       res = some r ∧ disp3.waiting_list = rest) ∧
    (disp.waiting_list = [] →
     disp.request_driver a = some (none, disp1) →
     disp1.request_driver b = some (none, disp2) →
     disp2.request_rider driver = some (res, disp3) →
     res = some a ∧ disp3.waiting_list = [b]) := by
  constructor
  · intro r rest hwl h
    obtain ⟨bb, hb⟩ := request_rider_member_of_success disp driver res disp3 h
    rw [request_rider_eq disp driver bb hb] at h
    simp at h
    obtain ⟨h1, h2⟩ := h
    refine ⟨?_, ?_⟩
    · rw [← h1, hwl]
      rfl
    · rw [← h2]
      show disp.waiting_list.tail = rest
      rw [hwl]
      rfl
  · intro hwl0 hra hrb hrr
    have e1 := request_driver_none_appends disp a disp1 hra
    have e2 := request_driver_none_appends disp1 b disp2 hrb
    have hw2 : disp2.waiting_list = [a, b] := by
      rw [e2]
      show disp1.waiting_list ++ [b] = [a, b]
      rw [e1]
      show (disp.waiting_list ++ [a]) ++ [b] = [a, b]
      rw [hwl0]
      rfl
    obtain ⟨bb, hb⟩ := request_rider_member_of_success disp2 driver res disp3 hrr
    rw [request_rider_eq disp2 driver bb hb] at hrr
    simp at hrr
    obtain ⟨h1, h2⟩ := hrr
    refine ⟨?_, ?_⟩
    · rw [← h1, hw2]
      rfl
    · rw [← h2]
      show disp2.waiting_list.tail = [b]
      rw [hw2]
      rfl

/-- Claim C2 witness: riders "a" then "b" are waitlisted (registry empty);
a driver's request then matches "a" and leaves "b" waiting. -/
theorem waiting_list_fifo_witness :
    (some (Rider.init "a" ⟨0, 0⟩ ⟨1, 1⟩ 5) : Option Rider) =
        some (Rider.init "a" ⟨0, 0⟩ ⟨1, 1⟩ 5) ∧
    (Dispatcher.mk [Rider.init "b" ⟨2, 2⟩ ⟨3, 3⟩ 5] [Driver.init "d" ⟨0, 0⟩ 1]).waiting_list =
      [Rider.init "b" ⟨2, 2⟩ ⟨3, 3⟩ 5] :=
  (waiting_list_fifo (Dispatcher.mk [] []) (Driver.init "d" ⟨0, 0⟩ 1)
      (Rider.init "a" ⟨0, 0⟩ ⟨1, 1⟩ 5) (Rider.init "b" ⟨2, 2⟩ ⟨3, 3⟩ 5)
      (Dispatcher.mk [Rider.init "a" ⟨0, 0⟩ ⟨1, 1⟩ 5] [])
      (Dispatcher.mk [Rider.init "a" ⟨0, 0⟩ ⟨1, 1⟩ 5, Rider.init "b" ⟨2, 2⟩ ⟨3, 3⟩ 5] [])
      (Dispatcher.mk [Rider.init "b" ⟨2, 2⟩ ⟨3, 3⟩ 5] [Driver.init "d" ⟨0, 0⟩ 1])
      (some (Rider.init "a" ⟨0, 0⟩ ⟨1, 1⟩ 5))).2 rfl (by decide) (by decide) (by decide)

/-- Claim C4 witness: a stale `Cancellation` on a satisfied rider is a
strict no-op. -/
theorem rider_status_monotone_witness :
    Cancellation.do 3
        { id := "r", origin := ⟨0, 0⟩, destination := ⟨1, 1⟩, patience := 5,
          status := RiderStatus.satisfied }
        (Dispatcher.mk [] []) =
      ([], { id := "r", origin := ⟨0, 0⟩, destination := ⟨1, 1⟩, patience := 5,
             status := RiderStatus.satisfied }, Dispatcher.mk [] []) :=
  (rider_status_monotone "x" ⟨0, 0⟩ ⟨0, 0⟩ 0 3
      { id := "r", origin := ⟨0, 0⟩, destination := ⟨1, 1⟩, patience := 5,
        status := RiderStatus.satisfied }
      (Driver.init "d" ⟨0, 0⟩ 1) (Dispatcher.mk [] []) [] (Rider.init "x" ⟨0, 0⟩ ⟨0, 0⟩ 0)
      (Driver.init "d" ⟨0, 0⟩ 1) (Dispatcher.mk [] [])).2.2.2.1 rfl
